import Mathlib

/-!
Verification of the Gesture_Shooter core (src/js/core.js, which bundles the
`core.js` systems and the `main.js` orchestration of the repository).

Conventions of the embedding:
* JS numbers are modelled as rationals (`ℚ`); all arithmetic in the modelled
  code paths is exact (+, -, *, /, min, max, comparisons), so `ℚ` is faithful
  for the concrete inputs used here.
* `Math.sqrt` only occurs inside comparisons of the form `sqrt s < m` with
  `s ≥ 0`; such a comparison is embedded sqrt-free as `0 < m ∧ s < m ^ 2`,
  which is equivalent over the reals.  Likewise `d1 < d2` for two distances
  is embedded as `d1 ^ 2 < d2 ^ 2`.
* `Math.round` (round half toward +∞) is `⌊q + 1/2⌋`.
* Methods of `gameplay.js` (Player / Enemy / Projectile internals) are not in
  the sources; the few that collision resolution calls are modelled from the
  spec and are marked `Modelled from the spec:` in their doc comments.
-/

namespace GestureShooter

/-- Constant `COLLISION_EPSILON` from src/js/core.js line 2. -/
def collisionEpsilon : ℚ := 1/1000

/-- Embeds `CollisionSystem.checkCircleCollision` (src/js/core.js lines
120-127): distance between centers is less than the sum of radii plus the
epsilon.  The JS test is `Math.sqrt(dx*dx+dy*dy) < r1+r2+eps`; since the
square root is nonnegative, it is equivalent to
`0 < r1+r2+eps ∧ dx^2+dy^2 < (r1+r2+eps)^2`, which is what is encoded here. -/
def collideB (x1 y1 r1 x2 y2 r2 : ℚ) : Bool :=
  let m := r1 + r2 + collisionEpsilon
  decide (0 < m ∧ (x2 - x1) ^ 2 + (y2 - y1) ^ 2 < m ^ 2)

/-! ## Signal Conditioner: pinch hysteresis (GestureInputManager) -/

/-- Enter threshold of the right-hand pinch, `rightPinchOnThreshold = 0.04`
(src/js/core.js line 533). -/
def rightPinchOnThreshold : ℚ := 1/25

/-- Exit threshold of the right-hand pinch, `rightPinchOffThreshold = 0.055`
(src/js/core.js line 534). -/
def rightPinchOffThreshold : ℚ := 11/200

/-- One tick of the per-hand pinch hysteresis from
`GestureInputManager.onResults` (src/js/core.js lines 614-649).  The input is
`some dist` when both the fingertip and thumb-tip landmarks of the hand are
present this tick (`dist` their distance in normalized image space), `none`
when either is absent.  When active, the state leaves only on
`dist > off`; when inactive, it enters only on `dist < on`; a missing hand
forces inactive. -/
def pinchStep (on' off : ℚ) (active : Bool) (d : Option ℚ) : Bool :=
  match d with
  | none => false
  | some dist =>
    if active then
      if off < dist then false else true
    else
      if dist < on' then true else false

/-- Folding `pinchStep` over a sequence of ticks in which the hand is present
every tick. -/
def pinchRun (on' off : ℚ) (active : Bool) (l : List ℚ) : Bool :=
  l.foldl (fun a dist => pinchStep on' off a (some dist)) active

/-! ## Signal Conditioner: aim smoothing (GestureInputManager) -/

/-- A 2D point with rational coordinates. -/
structure Pt where
  x : ℚ
  y : ℚ
deriving DecidableEq, Repr

/-- Smoothing weight `aimSmoothingAlpha = 0.4` (src/js/core.js line 526). -/
def aimSmoothingAlpha : ℚ := 2/5

/-- Deadzone `aimDeadzonePx = 6` pixels (src/js/core.js line 527). -/
def aimDeadzonePx : ℚ := 6

/-- Per-tick step cap `aimMaxStepPx = 10000` (src/js/core.js line 528). -/
def aimMaxStepPx : ℚ := 10000

/-- Embeds `Utils.clamp` (src/js/core.js lines 57-59):
`Math.min(Math.max(value, min), max)`. -/
def clampQ (value lo hi : ℚ) : ℚ := min (max value lo) hi

/-- JavaScript `Math.round`: round half toward positive infinity. -/
def roundJS (q : ℚ) : ℤ := Int.floor (q + 1/2)

/-- One aim-smoothing step from `GestureInputManager.onResults`
(src/js/core.js lines 713-732).  `prevOpt` is `gestureAimSmoothed` (`none`
when unset; the code then uses the raw point itself as `prev`).  The deadzone
test `Math.hypot(dx,dy) < aimDeadzonePx` is embedded sqrt-free as
`dx^2 + dy^2 < aimDeadzonePx^2` (both sides of the JS comparison are
nonnegative). -/
def aimSmoothStep (prevOpt : Option Pt) (raw : Pt) : Pt :=
  let prev := prevOpt.getD raw
  let dxAim := raw.x - prev.x
  let dyAim := raw.y - prev.y
  if dxAim ^ 2 + dyAim ^ 2 < aimDeadzonePx ^ 2 then
    prev
  else
    let cappedDx := clampQ dxAim (-aimMaxStepPx) aimMaxStepPx
    let cappedDy := clampQ dyAim (-aimMaxStepPx) aimMaxStepPx
    let a := aimSmoothingAlpha
    { x := prev.x * (1 - a) + (prev.x + cappedDx) * a
    , y := prev.y * (1 - a) + (prev.y + cappedDy) * a }

/-- The aim target published for game use, `gestureAimTargetGame`
(src/js/core.js lines 735-738): the smoothed point, each coordinate rounded
with `Math.round`. -/
def aimPublish (prevOpt : Option Pt) (raw : Pt) : ℤ × ℤ :=
  let s := aimSmoothStep prevOpt raw
  (roundJS s.x, roundJS s.y)

/-! ## Input Fusion Layer: weapon-switch debounce (InputManager) -/

/-- Cooldown `weaponSwitchCooldown = 0.2` seconds (src/js/core.js line 165). -/
def weaponSwitchCooldown : ℚ := 1/5

/-- Observable state of the weapon-switch debounce inside `InputManager`:
the `switchWeapon` flag, `lastWeaponSwitchTime` (seconds, the wall clock
`Date.now()/1000` is threaded through the events), and the number of weapon
toggles the consumer has applied so far. -/
structure SwState where
  flag : Bool
  lastClear : ℚ
  toggles : ℕ
deriving DecidableEq, Repr

/-- Events acting on the weapon-switch debounce.  `press t` is a raise signal
at wall-clock time `t`: the R key (`KeyboardMouseProvider.handleKeyDown`,
src/js/core.js lines 366-372) or a left-pinch rising edge
(`Game.updatePlaying`, lines 1282-1288); both set the flag only when it is
not already set and `canSwitchWeapon()` holds.  `consume t` is the consumer
step of `Game.updatePlaying` (lines 1291-1297) at time `t`: if the flag is
up, it applies `toggleWeapon()` once and calls `clearWeaponSwitch()`
(lines 210-215), which lowers the flag and records `t` as the last clear. -/
inductive SwEvent where
  | press (t : ℚ)
  | consume (t : ℚ)
deriving DecidableEq, Repr

/-- One transition of the weapon-switch debounce.  `canSwitchWeapon()`
(src/js/core.js lines 222-225) is `t - lastClear ≥ weaponSwitchCooldown`. -/
def swStep (s : SwState) (e : SwEvent) : SwState :=
  match e with
  | .press t =>
    if s.flag then s
    else if weaponSwitchCooldown ≤ t - s.lastClear then { s with flag := true }
    else s
  | .consume t =>
    if s.flag then { flag := false, lastClear := t, toggles := s.toggles + 1 }
    else s

/-- Runs a sequence of timed events through the weapon-switch debounce. -/
def swRun (s : SwState) (l : List SwEvent) : SwState :=
  l.foldl swStep s

/-- Timing side condition for one event of a rapid burst that starts with a
raise signal at time `t1`: raise signals land inside the cooldown window
`[t1, t1 + weaponSwitchCooldown)` and consumer steps do not run before the
burst started. -/
def swEventInWindow (t1 : ℚ) : SwEvent → Bool
  | .press t => decide (t < t1 + weaponSwitchCooldown)
  | .consume t => decide (t1 ≤ t)

/-- Recognises a consumer step. -/
def swEventIsConsume : SwEvent → Bool
  | .press _ => false
  | .consume _ => true

/-! ## Input Fusion Layer: provider registry and fallback (InputManager) -/

/-- An input provider as the Fusion Layer sees it: its `name` field and
whether its `update(deltaTime)` raises an error this tick. -/
structure Provider where
  pname : String
  fails : Bool
deriving DecidableEq, Repr

/-- The provider-related state of `InputManager` (src/js/core.js lines
153-236): the registry map, the active provider and the fallback provider.
JS holds object references; reference identity (`!==`) is modelled by name,
which is faithful because every provider in the repository carries a distinct
`name`. -/
structure InputMgrState where
  providers : List (String × Provider)
  active : Option Provider
  fallback : Option Provider
deriving DecidableEq, Repr

/-- Embeds `InputManager.setActiveProvider` (src/js/core.js lines 188-197):
look the name up in the registry; when found, make it active (the
`deactivate`/`activate` listener calls are external I/O and carry no state
modelled here), otherwise do nothing. -/
def setActiveProvider (s : InputMgrState) (n : String) : InputMgrState :=
  match s.providers.lookup n with
  | some p => { s with active := some p }
  | none => s

/-- Embeds `InputManager.fallbackToDefault` (src/js/core.js lines 232-236):
if a fallback provider is set and is not the active one, switch to it by
name. -/
def fallbackToDefault (s : InputMgrState) : InputMgrState :=
  match s.fallback with
  | none => s
  | some q =>
    match s.active with
    | none => setActiveProvider s q.pname
    | some p => if p.pname = q.pname then s else setActiveProvider s q.pname

/-- Embeds `InputManager.update` (src/js/core.js lines 199-208): delegate to
the active provider inside a try/catch; when the provider's update throws,
the error is caught, logged (`console.warn`, external I/O) and
`fallbackToDefault()` runs.  The function is total: no error escapes the
layer. -/
def inputMgrUpdate (s : InputMgrState) : InputMgrState :=
  match s.active with
  | none => s
  | some p => if p.fails then fallbackToDefault s else s

/-! ## Entity model

The entity classes live in `js/gameplay.js`, which is not among the sources;
only the fields and methods that `main.js` reads are modelled, from the
spec's data model (§3) and entity contracts (§4.3). -/

/-- Owner tag of a projectile: `'player'`, an enemy identifier string, or
`null` (src spec §4.3: projectiles "carry an `owner` tag ... used by the
Collision Engine to decide valid damage targets"). -/
inductive Owner where
  | player
  | enemy
  | null
deriving DecidableEq, Repr

/-- An enemy as the collision engine sees it: position, collision radius,
hit points and contact damage.  Modelled from the spec: §3 "Entity ...
position (x,y), radius (for circle collision), ... hp/maxHp, damage". -/
structure EnemySt where
  x : ℚ
  y : ℚ
  radius : ℚ
  hp : ℚ
  damage : ℚ
deriving DecidableEq, Repr

/-- Modelled from the spec: `Enemy.takeDamage` of the missing `gameplay.js`
subtracts the damage from the enemy's hit points (§4.4 "damage applied"). -/
def enemyTakeDamage (e : EnemySt) (d : ℚ) : EnemySt :=
  { e with hp := e.hp - d }

/-- Modelled from the spec: `Enemy.isAlive` of the missing `gameplay.js`;
§4.4 defines enemy death as `hp ≤ 0`. -/
def enemyIsAlive (e : EnemySt) : Bool :=
  decide (0 < e.hp)

/-- A projectile as the collision engine sees it. -/
structure Proj where
  x : ℚ
  y : ℚ
  radius : ℚ
  damage : ℚ
  owner : Owner
  alive : Bool
deriving DecidableEq, Repr

/-- The player as the collision engine sees it.  `canDamage` models the
result of `canTakeDamage()` this tick.  Modelled from the spec: §4.3 "Player:
finite hp/maxHp, invulnerability window after taking damage
(`canTakeDamage()` gate)". -/
structure PlayerSt where
  x : ℚ
  y : ℚ
  radius : ℚ
  hp : ℚ
  maxHp : ℚ
  canDamage : Bool
deriving DecidableEq, Repr

/-- Modelled from the spec: `Player.takeDamage` of the missing `gameplay.js`
subtracts the damage and opens the invulnerability window, so that
`canTakeDamage()` is false afterwards (§4.3). -/
def playerTakeDamage (p : PlayerSt) (d : ℚ) : PlayerSt :=
  { p with hp := p.hp - d, canDamage := false }

/-- Modelled from the spec: `Player.isAlive` of the missing `gameplay.js`;
the player is alive while hit points remain positive. -/
def playerIsAlive (p : PlayerSt) : Bool :=
  decide (0 < p.hp)

/-- Pickup types, `PICKUP_TYPES` used by `main.js` (machine-gun ammo,
grenade ammo, heal, pistol haste). -/
inductive PickupType where
  | mgAmmo
  | grenade
  | heal
  | pistolHaste
deriving DecidableEq, Repr

/-- A pickup: static circle plus its type (spec §3 and §4.3). -/
structure PickupSt where
  x : ℚ
  y : ℚ
  radius : ℚ
  ptype : PickupType
deriving DecidableEq, Repr

/-! ## Game state and the Collision & Resolution Engine (`main.js` part of
src/js/core.js) -/

/-- The `GAME_STATES` enum (src/js/core.js lines 888-895). -/
inductive GState where
  | boot
  | menu
  | playing
  | paused
  | upgradePick
  | gameOver
deriving DecidableEq, Repr

/-- The slice of the `Game` singleton that the collision engine, the pickup
system and the pistol-haste buff read and write (src/js/core.js lines
923-977).  `pickupConfirm` models
`this.inputManager.isPickingUp() || this.gestureInput.isRightPinchActive()`
as read by `handleCollisions` (lines 1580-1581); it is input state, constant
within one simulation tick. -/
structure GameSt where
  gstate : GState
  player : PlayerSt
  enemies : List EnemySt
  projectiles : List Proj
  pickups : List PickupSt
  killCount : ℕ
  pickupCandidate : Option PickupSt
  pickupConfirm : Bool
  mgAmmo : ℚ
  grenadeAmmo : ℚ
  pistolHasteActive : Bool
  pistolHasteRemaining : ℚ
  pistolBaseFireRate : ℚ
  pistolFireRate : ℚ
deriving DecidableEq, Repr

/-- Embeds `Game.recomputePistolFireRate` (src/js/core.js lines 1433-1437):
the pistol's effective fire interval is the base rate divided by 3 while
haste is active.  (`pistolBaseFireRate` is initialised in `initGameObjects`,
line 1145, so the `?? this.weapons.pistol.fireRate` default never fires in a
running game.) -/
def recomputePistolFireRate (g : GameSt) : GameSt :=
  { g with pistolFireRate := g.pistolBaseFireRate / (if g.pistolHasteActive then 3 else 1) }

/-- Embeds `Game.applyPickupEffect` (src/js/core.js lines 1750-1775).  The
`showToast` calls are HUD I/O. -/
def applyPickupEffect (g : GameSt) : PickupType → GameSt
  | .mgAmmo => { g with mgAmmo := g.mgAmmo + 20 }
  | .grenade => { g with grenadeAmmo := g.grenadeAmmo + 5 }
  | .heal => { g with player := { g.player with hp := min g.player.maxHp (g.player.hp + 1) } }
  | .pistolHaste =>
    recomputePistolFireRate { g with pistolHasteActive := true, pistolHasteRemaining := 10 }

/-- Embeds the pistol-haste countdown of `Game.updatePlaying` (src/js/core.js
lines 1345-1352): while active, the remaining time drops by `deltaTime`
(clamped at 0); on reaching 0 the buff deactivates and the fire rate is
recomputed. -/
def pistolHasteTick (g : GameSt) (dt : ℚ) : GameSt :=
  if g.pistolHasteActive then
    let r := max 0 (g.pistolHasteRemaining - dt)
    if r ≤ 0 then
      recomputePistolFireRate { g with pistolHasteActive := false, pistolHasteRemaining := r }
    else
      { g with pistolHasteRemaining := r }
  else g

/-- Phase 1 of `Game.handleCollisions` (src/js/core.js lines 1521-1528):
each enemy in contact with the player deals its contact damage, gated by
`canTakeDamage()`. -/
def playerVsEnemies (pl : PlayerSt) (es : List EnemySt) : PlayerSt :=
  es.foldl
    (fun p e =>
      if collideB p.x p.y p.radius e.x e.y e.radius then
        if p.canDamage then playerTakeDamage p e.damage else p
      else p)
    pl

/-- One iteration of the inner loop of phase 2 of `Game.handleCollisions`
(src/js/core.js lines 1534-1547): a fixed player-owned projectile `pr`
against one enemy.  The running state is (kill counter, enemies processed so
far, the projectile's `alive` flag).  On overlap the enemy takes the
projectile's damage, the flag is set false, and the kill counter increments
whenever the enemy is not alive after the hit (`if (!enemy.isAlive())
this.killCount++`, lines 1544-1546).  The loop never tests the projectile's
`alive` flag, so a projectile spent on an earlier enemy is still tested
against the remaining ones.  (The hurt-sound branch at lines 1538-1542 is
audio I/O.) -/
def projHitStep (pr : Proj) (st : ℕ × List EnemySt × Bool) (e : EnemySt) :
    ℕ × List EnemySt × Bool :=
  if collideB pr.x pr.y pr.radius e.x e.y e.radius then
    let e' := enemyTakeDamage e pr.damage
    ((if enemyIsAlive e' then st.1 else st.1 + 1), st.2.1 ++ [e'], false)
  else
    (st.1, st.2.1 ++ [e], st.2.2)

/-- The inner loop of phase 2 of `Game.handleCollisions` (src/js/core.js
lines 1533-1548): one player-owned projectile against every enemy in array
order.  Returns the updated kill counter, enemy list and projectile. -/
def projHitEnemies (pr : Proj) (kc : ℕ) (es : List EnemySt) : ℕ × List EnemySt × Proj :=
  let r := es.foldl (projHitStep pr) (kc, [], pr.alive)
  (r.1, r.2.1, { pr with alive := r.2.2 })

/-- One iteration of the outer loop of phase 2 of `Game.handleCollisions`
(src/js/core.js lines 1531-1550): projectiles owned by `'player'` run the
inner loop; all others pass through untouched. -/
def projPassStep (st : ℕ × List EnemySt × List Proj) (pr : Proj) :
    ℕ × List EnemySt × List Proj :=
  if pr.owner = Owner.player then
    let r := projHitEnemies pr st.1 st.2.1
    (r.1, r.2.1, st.2.2 ++ [r.2.2])
  else
    (st.1, st.2.1, st.2.2 ++ [pr])

/-- Phase 2 of `Game.handleCollisions` (src/js/core.js lines 1531-1550):
enemy hit points and the kill counter are threaded through in array order. -/
def projectilesVsEnemies (kc : ℕ) (es : List EnemySt) (prs : List Proj) :
    ℕ × List EnemySt × List Proj :=
  prs.foldl projPassStep (kc, es, [])

/-- One iteration of phase 3 of `Game.handleCollisions` (src/js/core.js
lines 1553-1562): a projectile whose owner is neither `'player'` nor `null`
and which overlaps the player damages the player and is deactivated, but
only while `canTakeDamage()` holds; otherwise both the player and the
projectile are left untouched. -/
def enemyProjStep (st : PlayerSt × List Proj) (pr : Proj) : PlayerSt × List Proj :=
  if pr.owner ≠ Owner.player ∧ pr.owner ≠ Owner.null then
    if collideB pr.x pr.y pr.radius st.1.x st.1.y st.1.radius then
      if st.1.canDamage then
        (playerTakeDamage st.1 pr.damage, st.2 ++ [{ pr with alive := false }])
      else (st.1, st.2 ++ [pr])
    else (st.1, st.2 ++ [pr])
  else (st.1, st.2 ++ [pr])

/-- Phase 3 of `Game.handleCollisions` (src/js/core.js lines 1553-1562). -/
def enemyProjectilesVsPlayer (pl : PlayerSt) (prs : List Proj) : PlayerSt × List Proj :=
  prs.foldl enemyProjStep (pl, [])

/-- Side condition of the amended C1 claim: the projectile is player-owned
and its circle overlaps the enemy's.  Overlap depends only on positions and
radii, which phase 2 never changes. -/
def playerHitsB (pr : Proj) (e : EnemySt) : Bool :=
  decide (pr.owner = Owner.player) && collideB pr.x pr.y pr.radius e.x e.y e.radius

/-- The nearest-overlapping-pickup scan of `Game.handleCollisions`
(src/js/core.js lines 1566-1577): iterate the pickups in index order,
keeping the index of the overlapping pickup nearest to the player.  The JS
comparison `d < nearestDist` on `Math.sqrt` distances (starting from
`Infinity`) is embedded on squared distances, which orders identically. -/
def nearestOverlapIdx (pl : PlayerSt) (pks : List PickupSt) : Option ℕ :=
  (pks.enum.foldl
    (fun (best : Option (ℕ × ℚ)) ip =>
      if collideB pl.x pl.y pl.radius ip.2.x ip.2.y ip.2.radius then
        let dsq := (ip.2.x - pl.x) ^ 2 + (ip.2.y - pl.y) ^ 2
        match best with
        | none => some (ip.1, dsq)
        | some b => if dsq < b.2 then some (ip.1, dsq) else some b
      else best)
    none).map Prod.fst

/-- Phase 4 of `Game.handleCollisions` (src/js/core.js lines 1564-1588):
reset the candidate, pick the nearest overlapping pickup as the new
candidate, and, only while the pickup-confirm signal (F key or right-hand
pinch) is true, apply its effect, remove exactly it (`splice(nearestIndex,
1)`), and null the candidate.  All other pickups are untouched. -/
def pickupPhase (g : GameSt) : GameSt :=
  let g0 := { g with pickupCandidate := none }
  match nearestOverlapIdx g0.player g0.pickups with
  | none => g0
  | some i =>
    match g0.pickups[i]? with
    | none => g0
    | some pk =>
      if g0.pickupConfirm then
        let g1 := applyPickupEffect g0 pk.ptype
        { g1 with pickups := g1.pickups.eraseIdx i, pickupCandidate := none }
      else
        { g0 with pickupCandidate := some pk }

/-- Embeds `Game.handleCollisions` (src/js/core.js lines 1520-1589): the four
phases in their fixed source order, sharing the mutated player, enemy list,
projectile list and kill counter. -/
def handleCollisions (g : GameSt) : GameSt :=
  let pl1 := playerVsEnemies g.player g.enemies
  let r2 := projectilesVsEnemies g.killCount g.enemies g.projectiles
  let r3 := enemyProjectilesVsPlayer pl1 r2.2.2
  pickupPhase
    { g with player := r3.1, enemies := r2.2.1, projectiles := r3.2, killCount := r2.1 }

/-- Embeds the dispatch structure of `Game.update` (src/js/core.js lines
1204-1230), parameterised by the PLAYING-branch body (`updatePlaying` calls
into `gameplay.js`, which is not among the sources).  The per-tick order is:
state switch — `updatePlaying` only in PLAYING, `updateGameOver` (an empty
method, lines 1439-1441) in GAME_OVER, nothing otherwise — then an
unconditional `handleCollisions()` (line 1220), then `updateHUD` (HUD I/O),
then the death transition to GAME_OVER (lines 1226-1229).
`inputManager.update` at line 1206 acts on input state, which is modelled as
the constant-per-tick `pickupConfirm` field. -/
def gameUpdateWith (upPlaying : GameSt → GameSt) (g : GameSt) : GameSt :=
  let g1 :=
    match g.gstate with
    | GState.playing => upPlaying g
    | _ => g
  let g2 := handleCollisions g1
  if g2.gstate = GState.playing ∧ ¬ playerIsAlive g2.player then
    { g2 with gstate := GState.gameOver }
  else g2

/-! ## Concrete fixtures used by counterexamples and witnesses -/

/-- An enemy with 1 hp sitting at the origin. -/
def cxEnemyWeak : EnemySt := ⟨0, 0, 1, 1, 1⟩

/-- A player projectile overlapping `cxEnemyWeak` from the right. -/
def cxShotRight : Proj := ⟨1, 0, 2, 1, Owner.player, true⟩

/-- A second player projectile overlapping `cxEnemyWeak` from the left. -/
def cxShotLeft : Proj := ⟨-1, 0, 2, 1, Owner.player, true⟩

/-- An enemy with 5 hp at the origin. -/
def cxEnemyA : EnemySt := ⟨0, 0, 1, 5, 1⟩

/-- An enemy with 5 hp two units to the right. -/
def cxEnemyB : EnemySt := ⟨2, 0, 1, 5, 1⟩

/-- A player projectile of damage 3 overlapping both `cxEnemyA` and
`cxEnemyB` (center distance 1 to each, against a collision bound of
`2 + 1 + 0.001`). -/
def cxShotBoth : Proj := ⟨1, 0, 2, 3, Owner.player, true⟩

/-- An enemy with 2 hp overlapping `cxShotBoth`-style shot, used by the C1
witness. -/
def cxEnemyNear : EnemySt := ⟨0, 0, 1, 2, 1⟩

/-- An enemy with 5 hp far from the origin. -/
def cxEnemyFar : EnemySt := ⟨50, 0, 1, 5, 1⟩

/-- A player projectile of damage 10 overlapping only `cxEnemyFar` (center
distance 0.5), disjoint from the shots near the origin. -/
def cxShotFar : Proj := ⟨101/2, 0, 2, 10, Owner.player, true⟩

/-- A player at the arena center with 2 of 3 hp, able to take damage. -/
def cxPlayerHurt : PlayerSt := ⟨600, 400, 20, 2, 3, true⟩

/-- A dead player (0 hp) at the arena center. -/
def cxPlayerDead : PlayerSt := ⟨600, 400, 20, 0, 3, true⟩

/-- A player inside an invulnerability window (`canTakeDamage()` false). -/
def cxPlayerInvuln : PlayerSt := ⟨600, 400, 20, 3, 3, false⟩

/-- A heal pickup overlapping the fixture players (center distance 10
against a collision bound of `20 + 28 + 0.001`). -/
def cxPickupHeal : PickupSt := ⟨610, 400, 28, PickupType.heal⟩

/-- A machine-gun-ammo pickup also overlapping the fixture players (center
distance 40), farther than `cxPickupHeal`. -/
def cxPickupMg : PickupSt := ⟨640, 400, 28, PickupType.mgAmmo⟩

/-- A PLAYING-state game: hurt player, no enemies or projectiles, two
overlapping pickups, pickup-confirm signal held. -/
def cxGamePlaying : GameSt :=
  ⟨GState.playing, cxPlayerHurt, [], [], [cxPickupHeal, cxPickupMg], 0, none, true,
    0, 0, false, 0, 1/2, 1/2⟩

/-- A GAME_OVER-state game: dead player, no enemies or projectiles, one
overlapping heal pickup, pickup-confirm signal held. -/
def cxGameOver : GameSt :=
  ⟨GState.gameOver, cxPlayerDead, [], [], [cxPickupHeal], 0, none, true,
    0, 0, false, 0, 1/2, 1/2⟩

/-- A PLAYING-state game used by the C8 witness (pistol base rate 0.5 s). -/
def cxGameHaste : GameSt :=
  ⟨GState.playing, cxPlayerHurt, [], [], [], 0, none, false,
    0, 0, false, 0, 1/2, 1/2⟩

/-- An enemy-owned projectile overlapping the fixture players. -/
def cxEnemyShot : Proj := ⟨605, 400, 4, 1, Owner.enemy, true⟩

/-- The keyboard/mouse provider, registered as fallback (src/js/core.js
line 1111), with a non-throwing `update`. -/
def cxKeyboardProvider : Provider := ⟨"keyboard-mouse", false⟩

/-- A gesture provider whose `update` throws this tick. -/
def cxGestureProvider : Provider := ⟨"gesture", true⟩

/-- An input-manager state with the failing gesture provider active and the
keyboard/mouse provider as fallback. -/
def cxInputMgr : InputMgrState :=
  ⟨[("keyboard-mouse", cxKeyboardProvider), ("gesture", cxGestureProvider)],
    some cxGestureProvider, some cxKeyboardProvider⟩

/-! ## Theorems -/

/-- While the pinch is active, a tick whose distance does not exceed the exit
threshold keeps it active; folded over a whole sequence. -/
theorem pinchRun_stay_active (on' off : ℚ) (l : List ℚ) (h : ∀ d ∈ l, d ≤ off) :
    pinchRun on' off true l = true := by
  induction l with
  | nil => rfl
  | cons d t ih =>
    have hd : ¬ off < d := not_lt.mpr (h d (List.mem_cons_self d t))
    have hstep : pinchStep on' off true (some d) = true := by
      simp [pinchStep, hd]
    show pinchRun on' off (pinchStep on' off true (some d)) t = true
    rw [hstep]
    exact ih (fun x hx => h x (List.mem_cons_of_mem d hx))

/-- From any initial pinch state, a sequence that crosses the enter
threshold and never exceeds the exit threshold ends active, whatever the
continuation. -/
theorem pinchRun_activates (on' off : ℚ) (l1 l2 : List ℚ) :
    ∀ a : Bool, (∃ d ∈ l1, d < on') → (∀ d ∈ l1 ++ l2, d ≤ off) →
      pinchRun on' off a (l1 ++ l2) = true := by
  induction l1 with
  | nil =>
    intro a h1 _
    simp at h1
  | cons d t ih =>
    intro a h1 h2
    have hdoff : ¬ off < d := not_lt.mpr (h2 d (List.mem_cons_self d (t ++ l2)))
    show pinchRun on' off (pinchStep on' off a (some d)) (t ++ l2) = true
    by_cases hd : d < on'
    · have hstep : pinchStep on' off a (some d) = true := by
        cases a <;> simp [pinchStep, hd, hdoff]
      rw [hstep]
      exact pinchRun_stay_active on' off (t ++ l2)
        (fun x hx => h2 x (List.mem_cons_of_mem d hx))
    · have hstep : pinchStep on' off a (some d) = a := by
        cases a <;> simp [pinchStep, hd, hdoff]
      rw [hstep]
      refine ih a ?_ (fun x hx => h2 x (List.mem_cons_of_mem d hx))
      rcases h1 with ⟨x, hx, hxlt⟩
      rcases List.mem_cons.mp hx with rfl | hxt
      · exact absurd hxlt hd
      · exact ⟨x, hxt, hxlt⟩

/-- C4: for every per-hand distance sequence in which the hand is present
every tick, once the fingertip–thumb distance crosses below the enter
threshold without the sequence ever rising above the exit threshold, the
pinch state becomes active and remains active for the rest of the sequence
(first conjunct, with `l2` an arbitrary continuation); an active pinch
deactivates on a present-hand tick only when the distance exceeds the exit
threshold (second conjunct); absent landmarks force the inactive state
(third conjunct). -/
theorem c4_pinch_hysteresis (on' off : ℚ) (a : Bool) (l1 l2 : List ℚ)
    (henter : ∃ d ∈ l1, d < on') (hnoexit : ∀ d ∈ l1 ++ l2, d ≤ off) :
    pinchRun on' off a (l1 ++ l2) = true ∧
      (∀ d : ℚ, pinchStep on' off true (some d) = false → off < d) ∧
      (∀ b : Bool, pinchStep on' off b none = false) := by
  refine ⟨pinchRun_activates on' off l1 l2 a henter hnoexit, ?_, ?_⟩
  · intro d hd
    by_contra hlt
    simp [pinchStep, hlt] at hd
  · intro b
    rfl

unseal Rat.add Rat.mul Rat.sub Rat.inv in
/-- Witness for C4 at the right-hand thresholds of the source (enter 0.04,
exit 0.055): the sequence 0.05, 0.03, 0.054 crosses the enter threshold at
its second tick, never exceeds the exit threshold, and ends active. -/
theorem c4_pinch_hysteresis_witness :
    (∃ d ∈ [(1:ℚ)/20, 3/100], d < rightPinchOnThreshold) ∧
      (∀ d ∈ [(1:ℚ)/20, 3/100] ++ [27/500], d ≤ rightPinchOffThreshold) ∧
      pinchRun rightPinchOnThreshold rightPinchOffThreshold false
        ([1/20, 3/100] ++ [27/500]) = true :=
  ⟨by decide, by decide,
    (c4_pinch_hysteresis rightPinchOnThreshold rightPinchOffThreshold false
      [1/20, 3/100] [27/500] (by decide) (by decide)).1⟩

/-- C5: on every tick on which the aim smoothing step runs, if the raw
point's delta from the last smoothed point has squared magnitude below the
squared pixel deadzone (the sqrt-free form of "magnitude below the
deadzone"), the smoothed point is exactly unchanged; otherwise the delta is
clamped to the per-tick maximum step, applied to the previous point and
blended by the exponential moving average — algebraically `prev + α·Δclamped`
per axis — with fixed weight α ∈ (0,1); and the published aim target is the
smoothed point rounded to integers. -/
theorem c5_aim_smoothing (prevOpt : Option Pt) (raw : Pt) :
    (0 < aimSmoothingAlpha ∧ aimSmoothingAlpha < 1) ∧
      ((raw.x - (prevOpt.getD raw).x) ^ 2 + (raw.y - (prevOpt.getD raw).y) ^ 2 <
          aimDeadzonePx ^ 2 →
        aimSmoothStep prevOpt raw = prevOpt.getD raw) ∧
      (aimDeadzonePx ^ 2 ≤
          (raw.x - (prevOpt.getD raw).x) ^ 2 + (raw.y - (prevOpt.getD raw).y) ^ 2 →
        aimSmoothStep prevOpt raw =
          ⟨(prevOpt.getD raw).x + aimSmoothingAlpha *
              clampQ (raw.x - (prevOpt.getD raw).x) (-aimMaxStepPx) aimMaxStepPx,
            (prevOpt.getD raw).y + aimSmoothingAlpha *
              clampQ (raw.y - (prevOpt.getD raw).y) (-aimMaxStepPx) aimMaxStepPx⟩) ∧
      aimPublish prevOpt raw =
        (roundJS (aimSmoothStep prevOpt raw).x, roundJS (aimSmoothStep prevOpt raw).y) := by
  refine ⟨by norm_num [aimSmoothingAlpha], ?_, ?_, rfl⟩
  · intro h
    simp only [aimSmoothStep]
    rw [if_pos h]
  · intro h
    simp only [aimSmoothStep]
    rw [if_neg (not_lt.mpr h)]
    rw [Pt.mk.injEq]
    constructor <;> ring

unseal Rat.add Rat.mul Rat.sub Rat.inv in
/-- Witness for C5: from smoothed point (0,0), the raw point (3,4) has
squared delta 25 < 36 and leaves the smoothed point unchanged; the raw point
(10,0) has squared delta 100 ≥ 36 and moves the smoothed point to
(0 + 0.4·10, 0) = (4,0), published as (4,0). -/
theorem c5_aim_smoothing_witness :
    aimSmoothStep (some ⟨0, 0⟩) ⟨3, 4⟩ = ⟨0, 0⟩ ∧
      aimSmoothStep (some ⟨0, 0⟩) ⟨10, 0⟩ = ⟨4, 0⟩ ∧
      aimPublish (some ⟨0, 0⟩) ⟨10, 0⟩ = (4, 0) := by
  refine ⟨?_, ?_, ?_⟩
  · have h := (c5_aim_smoothing (some ⟨0, 0⟩) ⟨3, 4⟩).2.1 (by decide)
    rw [h]
    rfl
  · have h := (c5_aim_smoothing (some ⟨0, 0⟩) ⟨10, 0⟩).2.2.1 (by decide)
    rw [h]
    decide
  · have h := (c5_aim_smoothing (some ⟨0, 0⟩) ⟨10, 0⟩).2.2.2
    rw [h]
    decide

/-- C7: when the active provider's `update` raises an error, the Fusion
Layer's `update` completes (it is a total function) and switches the active
provider to the registered, distinct fallback provider; the registry and the
fallback designation are untouched. -/
theorem c7_provider_fallback (s : InputMgrState) (p q : Provider)
    (hact : s.active = some p) (hfail : p.fails = true) (hfb : s.fallback = some q)
    (hreg : s.providers.lookup q.pname = some q) (hdist : p.pname ≠ q.pname) :
    (inputMgrUpdate s).active = some q ∧
      (inputMgrUpdate s).providers = s.providers ∧
      (inputMgrUpdate s).fallback = s.fallback := by
  simp [inputMgrUpdate, hact, hfail, fallbackToDefault, hfb, hdist, setActiveProvider, hreg]

/-- Witness for C7: the gesture provider throwing while active makes the
registered keyboard-mouse fallback active. -/
theorem c7_provider_fallback_witness :
    cxGestureProvider.fails = true ∧
      cxGestureProvider.pname ≠ cxKeyboardProvider.pname ∧
      (inputMgrUpdate cxInputMgr).active = some cxKeyboardProvider :=
  ⟨rfl, by decide,
    (c7_provider_fallback cxInputMgr cxGestureProvider cxKeyboardProvider
      rfl rfl rfl (by decide) (by decide)).1⟩

/-- When the player is inside the invulnerability window, every iteration of
phase 3 is the identity: the projectile list is only copied. -/
theorem enemyProjFold_invuln (prs : List Proj) :
    ∀ (pl : PlayerSt) (acc : List Proj), pl.canDamage = false →
      prs.foldl enemyProjStep (pl, acc) = (pl, acc ++ prs) := by
  induction prs with
  | nil =>
    intro pl acc _
    simp
  | cons pr t ih =>
    intro pl acc h
    have hstep : enemyProjStep (pl, acc) pr = (pl, acc ++ [pr]) := by
      simp [enemyProjStep, h]
    rw [List.foldl_cons, hstep, ih pl (acc ++ [pr]) h]
    simp

/-- C10: while the player's invulnerability window is active
(`canTakeDamage()` false), the enemy-projectile-vs-player pass leaves the
player (hp included) and every projectile (alive flag included) unchanged:
an overlapping enemy projectile is not deactivated and persists through the
player. -/
theorem c10_invuln_enemy_projectile_passthrough (pl : PlayerSt) (prs : List Proj)
    (h : pl.canDamage = false) :
    enemyProjectilesVsPlayer pl prs = (pl, prs) := by
  have hfold := enemyProjFold_invuln prs pl [] h
  simpa [enemyProjectilesVsPlayer] using hfold

unseal Rat.add Rat.mul Rat.sub Rat.inv in
/-- Witness for C10: an enemy-owned projectile overlapping an invulnerable
player (center distance 5 against a collision bound of 24.001) is left
alive, and the player's hp is unchanged. -/
theorem c10_invuln_enemy_projectile_passthrough_witness :
    cxPlayerInvuln.canDamage = false ∧
      collideB cxEnemyShot.x cxEnemyShot.y cxEnemyShot.radius
        cxPlayerInvuln.x cxPlayerInvuln.y cxPlayerInvuln.radius = true ∧
      enemyProjectilesVsPlayer cxPlayerInvuln [cxEnemyShot] =
        (cxPlayerInvuln, [cxEnemyShot]) :=
  ⟨rfl, by decide,
    c10_invuln_enemy_projectile_passthrough cxPlayerInvuln [cxEnemyShot] rfl⟩

unseal Rat.add Rat.mul Rat.sub Rat.inv in
/-- C9: in a single projectile-vs-enemy pass, the projectile `cxShotBoth`
overlaps both `cxEnemyA` and `cxEnemyB`; its `alive` flag is set false by
the hit on the first enemy, yet it is still collision-tested against the
second, and both enemies take its 3 damage (hp 5 → 2) in the same tick.  No
kill is counted since both survive. -/
theorem c9_dead_projectile_hits_second_enemy :
    projectilesVsEnemies 0 [cxEnemyA, cxEnemyB] [cxShotBoth] =
      (0, [⟨0, 0, 1, 2, 1⟩, ⟨2, 0, 1, 2, 1⟩], [⟨1, 0, 2, 3, Owner.player, false⟩]) := by
  decide

unseal Rat.add Rat.mul Rat.sub Rat.inv in
/-- C2, evaluation at the failing input: within one PLAYING tick the source
runs `handleCollisions` twice (once inside `Game.updatePlaying`, line 1355,
and once unconditionally in `Game.update`, line 1220; the filtering and
death checks between the two calls do not touch pickups or the confirm
flag).  With the pickup-confirm signal held and two pickups overlapping the
player, the first pass collects the nearest (heal, player hp 2 → 3) and the
second pass collects the other (machine-gun ammo +20): two pickups are
collected in a single tick. -/
theorem c2_double_pickup_per_tick :
    (handleCollisions cxGamePlaying).pickups = [cxPickupMg] ∧
      (handleCollisions cxGamePlaying).player.hp = 3 ∧
      (handleCollisions (handleCollisions cxGamePlaying)).pickups = [] ∧
      (handleCollisions (handleCollisions cxGamePlaying)).mgAmmo = 20 := by
  decide

unseal Rat.add Rat.mul Rat.sub Rat.inv in
/-- C3, evaluation at the failing input: in GAME_OVER (no restart anywhere),
one `Game.update` tick still runs `handleCollisions` (src/js/core.js line
1220 runs it for every state), so with the confirm signal held the dead
player collects the overlapping heal pickup: the pickup list empties and the
player's hp changes from 0 to 1, while the state stays GAME_OVER.  The
statement holds for every possible PLAYING-branch body `up`, which is never
invoked from a GAME_OVER state. -/
theorem c3_gameover_tick_mutates_entities :
    ∀ up : GameSt → GameSt,
      (gameUpdateWith up cxGameOver).gstate = GState.gameOver ∧
        (gameUpdateWith up cxGameOver).player.hp = 1 ∧
        (gameUpdateWith up cxGameOver).pickups = [] ∧
        cxGameOver.player.hp = 0 ∧ cxGameOver.pickups.length = 1 := by
  intro up
  have h : gameUpdateWith up cxGameOver = gameUpdateWith (fun g => g) cxGameOver := rfl
  rw [h]
  decide

/-- Witness for C3, instantiating the PLAYING-branch parameter. -/
theorem c3_gameover_tick_mutates_entities_witness :
    (gameUpdateWith (fun g => g) cxGameOver).player.hp = 1 ∧
      (gameUpdateWith (fun g => g) cxGameOver).pickups = [] :=
  ⟨(c3_gameover_tick_mutates_entities (fun g => g)).2.1,
    (c3_gameover_tick_mutates_entities (fun g => g)).2.2.1⟩

/-- Closed form of the inner phase-2 fold for one projectile: the kill
counter gains one unit per enemy that is overlapped and left with
nonpositive hp by the hit; every overlapped enemy takes the damage exactly
once; the projectile's alive flag survives only if no enemy was overlapped. -/
theorem projHitFold_spec (pr : Proj) (es : List EnemySt) :
    ∀ (kc : ℕ) (acc : List EnemySt) (al : Bool),
      es.foldl (projHitStep pr) (kc, acc, al) =
        (kc + es.countP (fun e =>
            collideB pr.x pr.y pr.radius e.x e.y e.radius &&
              decide (e.hp - pr.damage ≤ 0)),
          acc ++ es.map (fun e =>
            if collideB pr.x pr.y pr.radius e.x e.y e.radius then
              enemyTakeDamage e pr.damage
            else e),
          al && ! es.any (fun e => collideB pr.x pr.y pr.radius e.x e.y e.radius)) := by
  induction es with
  | nil =>
    intro kc acc al
    simp
  | cons e t ih =>
    intro kc acc al
    by_cases hcol : collideB pr.x pr.y pr.radius e.x e.y e.radius = true
    · by_cases hdie : e.hp - pr.damage ≤ 0
      · have hdie' : e.hp ≤ pr.damage := by linarith
        have hdead : enemyIsAlive (enemyTakeDamage e pr.damage) = false := by
          simp [enemyIsAlive, enemyTakeDamage]
          linarith
        have hstep : projHitStep pr (kc, acc, al) e =
            (kc + 1, acc ++ [enemyTakeDamage e pr.damage], false) := by
          simp [projHitStep, hcol, hdead]
        rw [List.foldl_cons, hstep, ih]
        simp only [Prod.mk.injEq]
        refine ⟨?_, by simp [hcol, List.append_assoc], by simp [hcol]⟩
        rw [List.countP_cons]
        simp only [hcol, Bool.true_and]
        rw [if_pos (by simpa using hdie)]
        omega
      · have hlive : enemyIsAlive (enemyTakeDamage e pr.damage) = true := by
          simp [enemyIsAlive, enemyTakeDamage]
          linarith [not_le.mp hdie]
        have hstep : projHitStep pr (kc, acc, al) e =
            (kc, acc ++ [enemyTakeDamage e pr.damage], false) := by
          simp [projHitStep, hcol, hlive]
        rw [List.foldl_cons, hstep, ih]
        simp only [Prod.mk.injEq]
        refine ⟨?_, by simp [hcol, List.append_assoc], by simp [hcol]⟩
        rw [List.countP_cons]
        simp only [hcol, Bool.true_and]
        rw [if_neg (by simpa using hdie)]
        omega
    · have hstep : projHitStep pr (kc, acc, al) e = (kc, acc ++ [e], al) := by
        simp [projHitStep, hcol]
      rw [List.foldl_cons, hstep, ih]
      simp only [Prod.mk.injEq]
      refine ⟨?_, by simp [hcol, List.append_assoc], by simp [hcol]⟩
      rw [List.countP_cons]
      simp [hcol]

/-- Effect of one player projectile's inner pass on the number of dead
enemies: when no currently-dead enemy is overlapped by the projectile, the
dead count grows by exactly the number of enemies the projectile overlaps
and leaves with nonpositive hp. -/
theorem countP_dead_map (pr : Proj) (es : List EnemySt)
    (hsafe : ∀ e ∈ es, enemyIsAlive e = false →
      collideB pr.x pr.y pr.radius e.x e.y e.radius = false) :
    (es.map (fun e =>
        if collideB pr.x pr.y pr.radius e.x e.y e.radius then
          enemyTakeDamage e pr.damage
        else e)).countP (fun e => ! enemyIsAlive e)
      = es.countP (fun e => ! enemyIsAlive e)
        + es.countP (fun e =>
            collideB pr.x pr.y pr.radius e.x e.y e.radius &&
              decide (e.hp - pr.damage ≤ 0)) := by
  induction es with
  | nil => rfl
  | cons e t ih =>
    have ht := ih (fun x hx hdead => hsafe x (List.mem_cons_of_mem _ hx) hdead)
    rw [List.map_cons, List.countP_cons, List.countP_cons, List.countP_cons, ht]
    by_cases hcol : collideB pr.x pr.y pr.radius e.x e.y e.radius = true
    · have halv : enemyIsAlive e = true := by
        cases h : enemyIsAlive e
        · rw [hsafe e (List.mem_cons_self _ _) h] at hcol
          cases hcol
        · rfl
      by_cases hdie : e.hp - pr.damage ≤ 0
      · have h1 : (! enemyIsAlive (enemyTakeDamage e pr.damage)) = true := by
          simp [enemyIsAlive, enemyTakeDamage]
          linarith
        simp [hcol, halv, hdie, h1]
        omega
      · have h1 : (! enemyIsAlive (enemyTakeDamage e pr.damage)) = false := by
          simp [enemyIsAlive, enemyTakeDamage]
          linarith [not_le.mp hdie]
        simp [hcol, halv, hdie, h1]
    · simp [hcol]
      omega

/-- Kill-counter bookkeeping across a whole phase-2 pass: as long as no
currently-dead enemy is overlapped by any remaining player-owned projectile,
and every enemy is overlapped by at most one player-owned projectile, the
pass increases the kill counter by exactly the number of enemies that become
dead during it. -/
theorem projPass_fold_count (prs : List Proj) :
    ∀ (es : List EnemySt) (kc : ℕ) (acc : List Proj),
      (∀ e ∈ es, enemyIsAlive e = false →
        prs.countP (fun pr => playerHitsB pr e) = 0) →
      (∀ e ∈ es, prs.countP (fun pr => playerHitsB pr e) ≤ 1) →
      (prs.foldl projPassStep (kc, es, acc)).1
          + es.countP (fun e => ! enemyIsAlive e)
        = kc + (prs.foldl projPassStep (kc, es, acc)).2.1.countP
            (fun e => ! enemyIsAlive e) := by
  induction prs with
  | nil =>
    intro es kc acc _ _
    rfl
  | cons pr rest ih =>
    intro es kc acc hA hB
    by_cases how : pr.owner = Owner.player
    · have hstep : projPassStep (kc, es, acc) pr =
          (kc + es.countP (fun e =>
              collideB pr.x pr.y pr.radius e.x e.y e.radius &&
                decide (e.hp - pr.damage ≤ 0)),
            es.map (fun e =>
              if collideB pr.x pr.y pr.radius e.x e.y e.radius then
                enemyTakeDamage e pr.damage
              else e),
            acc ++ [{ pr with alive := pr.alive && ! es.any (fun e => collideB pr.x pr.y pr.radius e.x e.y e.radius) }]) := by
        simp [projPassStep, how, projHitEnemies, projHitFold_spec]
      have hsafe : ∀ e ∈ es, enemyIsAlive e = false →
          collideB pr.x pr.y pr.radius e.x e.y e.radius = false := by
        intro e he hdead
        have h0 := (List.countP_eq_zero.mp (hA e he hdead)) pr (List.mem_cons_self _ _)
        cases hc : collideB pr.x pr.y pr.radius e.x e.y e.radius
        · rfl
        · exact absurd (show playerHitsB pr e = true by simp [playerHitsB, how, hc]) h0
      have hzero : ∀ e ∈ es, collideB pr.x pr.y pr.radius e.x e.y e.radius = true →
          rest.countP (fun q => playerHitsB q e) = 0 := by
        intro e he hc
        have hh : playerHitsB pr e = true := by
          simp [playerHitsB, how, hc]
        have h1 := hB e he
        rw [List.countP_cons_of_pos (fun q => playerHitsB q e) rest hh] at h1
        omega
      have hhits : ∀ (q : Proj) (e : EnemySt),
          playerHitsB q (if collideB pr.x pr.y pr.radius e.x e.y e.radius then
            enemyTakeDamage e pr.damage else e) = playerHitsB q e := by
        intro q e
        by_cases hc : collideB pr.x pr.y pr.radius e.x e.y e.radius = true
        · simp [hc, playerHitsB, enemyTakeDamage]
        · simp [hc]
      have hA' : ∀ x ∈ es.map (fun e =>
            if collideB pr.x pr.y pr.radius e.x e.y e.radius then
              enemyTakeDamage e pr.damage else e),
          enemyIsAlive x = false → rest.countP (fun q => playerHitsB q x) = 0 := by
        intro x hx hdead
        rcases List.mem_map.mp hx with ⟨e, he, rfl⟩
        have hcong : rest.countP (fun q => playerHitsB q
              (if collideB pr.x pr.y pr.radius e.x e.y e.radius then
                enemyTakeDamage e pr.damage else e))
            = rest.countP (fun q => playerHitsB q e) :=
          List.countP_congr (fun q _ => by rw [hhits q e])
        rw [hcong]
        by_cases hc : collideB pr.x pr.y pr.radius e.x e.y e.radius = true
        · exact hzero e he hc
        · rw [if_neg hc] at hdead
          have h0 := hA e he hdead
          refine List.countP_eq_zero.mpr ?_
          exact fun q hq => (List.countP_eq_zero.mp h0) q (List.mem_cons_of_mem _ hq)
      have hB' : ∀ x ∈ es.map (fun e =>
            if collideB pr.x pr.y pr.radius e.x e.y e.radius then
              enemyTakeDamage e pr.damage else e),
          rest.countP (fun q => playerHitsB q x) ≤ 1 := by
        intro x hx
        rcases List.mem_map.mp hx with ⟨e, he, rfl⟩
        have hcong : rest.countP (fun q => playerHitsB q
              (if collideB pr.x pr.y pr.radius e.x e.y e.radius then
                enemyTakeDamage e pr.damage else e))
            = rest.countP (fun q => playerHitsB q e) :=
          List.countP_congr (fun q _ => by rw [hhits q e])
        rw [hcong]
        by_cases hc : collideB pr.x pr.y pr.radius e.x e.y e.radius = true
        · rw [hzero e he hc]
          omega
        · have h1 := hB e he
          cases hh : playerHitsB pr e
          · rw [List.countP_cons_of_neg (fun q => playerHitsB q e) rest (by simp [hh])] at h1
            exact h1
          · rw [List.countP_cons_of_pos (fun q => playerHitsB q e) rest hh] at h1
            omega
      rw [List.foldl_cons, hstep]
      have hIH := ih
        (es.map (fun e =>
          if collideB pr.x pr.y pr.radius e.x e.y e.radius then
            enemyTakeDamage e pr.damage else e))
        (kc + es.countP (fun e =>
          collideB pr.x pr.y pr.radius e.x e.y e.radius &&
            decide (e.hp - pr.damage ≤ 0)))
        (acc ++ [{ pr with alive := pr.alive && ! es.any (fun e => collideB pr.x pr.y pr.radius e.x e.y e.radius) }])
        hA' hB'
      have hdm := countP_dead_map pr es hsafe
      omega
    · have hstep : projPassStep (kc, es, acc) pr = (kc, es, acc ++ [pr]) := by
        simp [projPassStep, how]
      have hhead : ∀ e : EnemySt, playerHitsB pr e = false := by
        intro e
        simp [playerHitsB, how]
      rw [List.foldl_cons, hstep]
      refine ih es kc (acc ++ [pr]) ?_ ?_
      · intro e he hdead
        have h0 := hA e he hdead
        rw [List.countP_cons_of_neg (fun q => playerHitsB q e) rest (by simp [hhead e])] at h0
        exact h0
      · intro e he
        have h1 := hB e he
        rw [List.countP_cons_of_neg (fun q => playerHitsB q e) rest (by simp [hhead e])] at h1
        exact h1

/-- C1 (amended): for every tick, each enemy death caused by a player-owned
projectile increments the global kill counter by exactly 1, never more,
regardless of how far damage exceeds the enemy's remaining hp, provided no
other player projectile overlaps that enemy in the same tick.  Formally: for
any mix of projectiles in flight in which every enemy is overlapped by at
most one player-owned projectile (disjoint multi-projectile ticks included;
non-player projectiles unrestricted), and with every enemy alive when the
pass starts, the phase-2 pass increases the kill counter by exactly the
number of enemies that die during it. -/
theorem c1_kill_counter_per_death (kc : ℕ) (es : List EnemySt) (prs : List Proj)
    (halive : ∀ e ∈ es, enemyIsAlive e = true)
    (hdisj : ∀ e ∈ es, prs.countP (fun pr => playerHitsB pr e) ≤ 1) :
    (projectilesVsEnemies kc es prs).1 =
      kc + (projectilesVsEnemies kc es prs).2.1.countP (fun e => ! enemyIsAlive e) := by
  have h := projPass_fold_count prs es kc []
    (fun e he hdead => absurd hdead (by simp [halive e he]))
    hdisj
  have hz : es.countP (fun e => ! enemyIsAlive e) = 0 :=
    List.countP_eq_zero.mpr (fun e he => by simp [halive e he])
  rw [hz] at h
  simpa [projectilesVsEnemies] using h

unseal Rat.add Rat.mul Rat.sub Rat.inv in
/-- Witness for C1 (amended), a genuine multi-projectile tick with disjoint
overlaps: one player projectile of damage 3 overlaps only `cxEnemyNear`
(2 hp, dies — overkill by 1), a second player projectile of damage 10
overlaps only `cxEnemyFar` (5 hp, dies), and an enemy-owned projectile rides
along; the kill counter increases by exactly 2 for the 2 deaths. -/
theorem c1_kill_counter_per_death_witness :
    (∀ e ∈ [cxEnemyNear, cxEnemyFar], enemyIsAlive e = true) ∧
      (∀ e ∈ [cxEnemyNear, cxEnemyFar],
        ([cxShotBoth, cxShotFar, cxEnemyShot].countP
          (fun pr => playerHitsB pr e)) ≤ 1) ∧
      (projectilesVsEnemies 0 [cxEnemyNear, cxEnemyFar]
          [cxShotBoth, cxShotFar, cxEnemyShot]).1 =
        0 + (projectilesVsEnemies 0 [cxEnemyNear, cxEnemyFar]
          [cxShotBoth, cxShotFar, cxEnemyShot]).2.1.countP (fun e => ! enemyIsAlive e) ∧
      (projectilesVsEnemies 0 [cxEnemyNear, cxEnemyFar]
          [cxShotBoth, cxShotFar, cxEnemyShot]).1 = 2 :=
  ⟨by decide, by decide,
    c1_kill_counter_per_death 0 [cxEnemyNear, cxEnemyFar]
      [cxShotBoth, cxShotFar, cxEnemyShot] (by decide) (by decide),
    by decide⟩

unseal Rat.add Rat.mul Rat.sub Rat.inv in
/-- Counterexample for C1 as frozen: with two player projectiles (damage 1
each) overlapping one enemy of 1 hp, the enemy dies once, yet the kill
counter increments twice in the same pass — the second projectile hits the
already-dead enemy (still in the list, since filtering runs only after the
pass) and `if (!enemy.isAlive()) killCount++` fires again. -/
theorem c1_counterexample :
    (projectilesVsEnemies 0 [cxEnemyWeak] [cxShotRight, cxShotLeft]).1 = 2 ∧
      (projectilesVsEnemies 0 [cxEnemyWeak] [cxShotRight, cxShotLeft]).2.1.countP
        (fun e => ! enemyIsAlive e) = 1 := by
  decide

/-- With the weapon-switch flag down and every raise signal arriving before
the cooldown has elapsed since the state's last clear, the debounce ignores
the whole event sequence. -/
theorem swRun_rejected (l : List SwEvent) :
    ∀ s : SwState, s.flag = false →
      (∀ t : ℚ, SwEvent.press t ∈ l → t - s.lastClear < weaponSwitchCooldown) →
      swRun s l = s := by
  induction l with
  | nil =>
    intro s _ _
    rfl
  | cons e t ih =>
    intro s hs hp
    cases e with
    | press tp =>
      have h1 : ¬ weaponSwitchCooldown ≤ tp - s.lastClear :=
        not_le.mpr (hp tp (List.mem_cons_self _ _))
      have hstep : swStep s (SwEvent.press tp) = s := by
        simp [swStep, hs, h1]
      show swRun (swStep s (SwEvent.press tp)) t = s
      rw [hstep]
      exact ih s hs (fun x hx => hp x (List.mem_cons_of_mem _ hx))
    | consume tc =>
      have hstep : swStep s (SwEvent.consume tc) = s := by
        simp [swStep, hs]
      show swRun (swStep s (SwEvent.consume tc)) t = s
      rw [hstep]
      exact ih s hs (fun x hx => hp x (List.mem_cons_of_mem _ hx))

/-- Once the flag is raised, a burst of events whose raise signals all fall
inside the cooldown window starting at `t1` and whose consumer steps all run
at or after `t1` produces exactly one weapon toggle (at the first consumer
step), after which the flag is down. -/
theorem swRun_burst_one_toggle (t1 : ℚ) (rest : List SwEvent) :
    ∀ (c0 : ℚ) (n0 : ℕ),
      (∀ e ∈ rest, swEventInWindow t1 e = true) →
      (∃ e ∈ rest, swEventIsConsume e = true) →
      (swRun ⟨true, c0, n0⟩ rest).toggles = n0 + 1 ∧
        (swRun ⟨true, c0, n0⟩ rest).flag = false := by
  induction rest with
  | nil =>
    intro c0 n0 _ hex
    simp at hex
  | cons e t ih =>
    intro c0 n0 hok hex
    cases e with
    | press tp =>
      have hstep : swStep ⟨true, c0, n0⟩ (SwEvent.press tp) = ⟨true, c0, n0⟩ := by
        simp [swStep]
      show (swRun (swStep ⟨true, c0, n0⟩ (SwEvent.press tp)) t).toggles = n0 + 1 ∧
        (swRun (swStep ⟨true, c0, n0⟩ (SwEvent.press tp)) t).flag = false
      rw [hstep]
      refine ih c0 n0 (fun x hx => hok x (List.mem_cons_of_mem _ hx)) ?_
      rcases hex with ⟨x, hx, hc⟩
      rcases List.mem_cons.mp hx with rfl | hxt
      · simp [swEventIsConsume] at hc
      · exact ⟨x, hxt, hc⟩
    | consume tc =>
      have htc : t1 ≤ tc := by
        have := hok (SwEvent.consume tc) (List.mem_cons_self _ _)
        simpa [swEventInWindow] using this
      have hstep : swStep ⟨true, c0, n0⟩ (SwEvent.consume tc) = ⟨false, tc, n0 + 1⟩ := by
        simp [swStep]
      show (swRun (swStep ⟨true, c0, n0⟩ (SwEvent.consume tc)) t).toggles = n0 + 1 ∧
        (swRun (swStep ⟨true, c0, n0⟩ (SwEvent.consume tc)) t).flag = false
      rw [hstep]
      have hrej : swRun ⟨false, tc, n0 + 1⟩ t = ⟨false, tc, n0 + 1⟩ := by
        apply swRun_rejected t ⟨false, tc, n0 + 1⟩ rfl
        intro x hx
        have hxw : x < t1 + weaponSwitchCooldown := by
          have := hok (SwEvent.press x) (List.mem_cons_of_mem _ hx)
          simpa [swEventInWindow] using this
        show x - tc < weaponSwitchCooldown
        linarith
      rw [hrej]
      exact ⟨rfl, rfl⟩

/-- C6: the weapon-switch flag, once raised, stays raised under further
raise signals until the consumer clears it (third conjunct: a press never
changes a raised state); a raise signal is accepted only when the flag is
down and the cooldown has elapsed since the last clear (this is `swStep`
itself); consequently, for every burst beginning with an accepted raise
signal at `t1` (cooldown elapsed since the last clear `c0`) whose further
raise signals all arrive within the cooldown window `[t1, t1 + cooldown)`
and which the consumer services at least once, exactly one weapon toggle is
applied, and the flag ends lowered. -/
theorem c6_weapon_switch_debounce (c0 t1 : ℚ) (n0 : ℕ) (rest : List SwEvent)
    (hready : weaponSwitchCooldown ≤ t1 - c0)
    (hwin : ∀ e ∈ rest, swEventInWindow t1 e = true)
    (hcons : ∃ e ∈ rest, swEventIsConsume e = true) :
    (swRun ⟨false, c0, n0⟩ (SwEvent.press t1 :: rest)).toggles = n0 + 1 ∧
      (swRun ⟨false, c0, n0⟩ (SwEvent.press t1 :: rest)).flag = false ∧
      (∀ (s : SwState) (t : ℚ), s.flag = true → swStep s (SwEvent.press t) = s) := by
  have hstep : swStep ⟨false, c0, n0⟩ (SwEvent.press t1) = ⟨true, c0, n0⟩ := by
    simp [swStep, hready]
  have hrun : swRun ⟨false, c0, n0⟩ (SwEvent.press t1 :: rest) =
      swRun ⟨true, c0, n0⟩ rest := by
    show swRun (swStep ⟨false, c0, n0⟩ (SwEvent.press t1)) rest = _
    rw [hstep]
  rw [hrun]
  rcases swRun_burst_one_toggle t1 rest c0 n0 hwin hcons with ⟨h1, h2⟩
  refine ⟨h1, h2, ?_⟩
  intro s t hs
  simp [swStep, hs]

unseal Rat.add Rat.mul Rat.sub Rat.inv in
/-- Witness for C6: last clear at 0 s, raise signals at 0.5 s, 0.55 s and
0.65 s (all inside one 0.2 s cooldown window), one consumer step at 0.6 s:
exactly one toggle is applied. -/
theorem c6_weapon_switch_debounce_witness :
    (swRun ⟨false, 0, 0⟩
        [SwEvent.press (1/2), SwEvent.press (11/20), SwEvent.consume (3/5),
          SwEvent.press (13/20)]).toggles = 1 ∧
      (swRun ⟨false, 0, 0⟩
        [SwEvent.press (1/2), SwEvent.press (11/20), SwEvent.consume (3/5),
          SwEvent.press (13/20)]).flag = false :=
  ⟨(c6_weapon_switch_debounce 0 (1/2) 0
      [SwEvent.press (11/20), SwEvent.consume (3/5), SwEvent.press (13/20)]
      (by decide) (by decide) (by decide)).1,
    (c6_weapon_switch_debounce 0 (1/2) 0
      [SwEvent.press (11/20), SwEvent.consume (3/5), SwEvent.press (13/20)]
      (by decide) (by decide) (by decide)).2.1⟩

/-- The pistol-haste countdown fold: from a state whose haste is either
active with positive remaining time at most `R`, or inactive with the fire
interval already at the base rate, ticking away deltas that sum to at least
`R` ends with the buff inactive and the fire interval equal to the unchanged
base rate. -/
theorem hasteFold_expires (dts : List ℚ) :
    ∀ (g : GameSt) (R : ℚ),
      (g.pistolHasteActive = true → 0 < g.pistolHasteRemaining ∧ g.pistolHasteRemaining ≤ R) →
      (g.pistolHasteActive = false → g.pistolFireRate = g.pistolBaseFireRate) →
      R ≤ dts.sum →
      (dts.foldl pistolHasteTick g).pistolFireRate = g.pistolBaseFireRate ∧
        (dts.foldl pistolHasteTick g).pistolHasteActive = false ∧
        (dts.foldl pistolHasteTick g).pistolBaseFireRate = g.pistolBaseFireRate := by
  induction dts with
  | nil =>
    intro g R hact hinact hsum
    rw [List.sum_nil] at hsum
    cases hga : g.pistolHasteActive
    · exact ⟨hinact hga, hga, rfl⟩
    · rcases hact hga with ⟨h1, h2⟩
      linarith
  | cons dt t ih =>
    intro g R hact hinact hsum
    have hsum' : R - dt ≤ t.sum := by
      have hs : (dt :: t).sum = dt + t.sum := List.sum_cons
      rw [hs] at hsum
      linarith
    rw [List.foldl_cons]
    cases hga : g.pistolHasteActive
    · have htick : pistolHasteTick g dt = g := by
        simp [pistolHasteTick, hga]
      rw [htick]
      exact ih g (R - dt) (fun h => by rw [hga] at h; cases h) (fun _ => hinact hga) hsum'
    · rcases hact hga with ⟨hpos, hle⟩
      by_cases hr : max 0 (g.pistolHasteRemaining - dt) ≤ 0
      · have htick : pistolHasteTick g dt =
            recomputePistolFireRate
              { g with
                pistolHasteActive := false
                pistolHasteRemaining := max 0 (g.pistolHasteRemaining - dt) } := by
          simp [pistolHasteTick, hga, hr]
        rw [htick]
        have h1 := ih (recomputePistolFireRate
            { g with
              pistolHasteActive := false
              pistolHasteRemaining := max 0 (g.pistolHasteRemaining - dt) }) (R - dt)
          (fun h => by simp [recomputePistolFireRate] at h)
          (fun _ => by simp [recomputePistolFireRate])
          hsum'
        simpa [recomputePistolFireRate] using h1
      · have htick : pistolHasteTick g dt =
            { g with pistolHasteRemaining := max 0 (g.pistolHasteRemaining - dt) } := by
          simp [pistolHasteTick, hga, hr]
        rw [htick]
        have hmax : max 0 (g.pistolHasteRemaining - dt) = g.pistolHasteRemaining - dt := by
          rcases max_cases 0 (g.pistolHasteRemaining - dt) with ⟨he, _⟩ | ⟨he, _⟩
          · exact absurd (le_of_eq he.symm) (by push_neg at hr; linarith)
          · exact he
        refine ih _ (R - dt) ?_ (fun h => by simp [hga] at h) hsum'
        intro _
        constructor
        · simpa using not_le.mp hr
        · simp [hmax]
          linarith

/-- C8: applying a pistol-haste pickup immediately divides the pistol's fire
interval (seconds between shots) by 3 relative to the current base rate and
sets the haste timer to 10 seconds; once the accumulated elapsed time
reaches 10 seconds, the buff deactivates and the fire interval reverts
exactly to the prior base rate. -/
theorem c8_pistol_haste (g : GameSt) (dts : List ℚ)
    (hnn : ∀ dt ∈ dts, 0 ≤ dt) (hsum : 10 ≤ dts.sum) :
    (applyPickupEffect g PickupType.pistolHaste).pistolFireRate = g.pistolBaseFireRate / 3 ∧
      (applyPickupEffect g PickupType.pistolHaste).pistolHasteRemaining = 10 ∧
      (dts.foldl pistolHasteTick (applyPickupEffect g PickupType.pistolHaste)).pistolFireRate =
        g.pistolBaseFireRate ∧
      (dts.foldl pistolHasteTick
        (applyPickupEffect g PickupType.pistolHaste)).pistolHasteActive = false := by
  have happ : applyPickupEffect g PickupType.pistolHaste =
      { g with
        pistolHasteActive := true
        pistolHasteRemaining := 10
        pistolFireRate := g.pistolBaseFireRate / 3 } := by
    simp [applyPickupEffect, recomputePistolFireRate]
  rw [happ]
  have h := hasteFold_expires dts
    { g with
      pistolHasteActive := true
      pistolHasteRemaining := 10
      pistolFireRate := g.pistolBaseFireRate / 3 } 10
    (fun _ => by norm_num)
    (fun h => by cases h)
    hsum
  exact ⟨rfl, rfl, h.1, h.2.1⟩

unseal Rat.add Rat.mul Rat.sub Rat.inv in
/-- Witness for C8: base rate 0.5 s between shots; the pickup sets the
interval to 1/6 s and the timer to 10 s; ticking 6 s then 5 s (11 s total)
reverts the interval to exactly 0.5 s with the buff off. -/
theorem c8_pistol_haste_witness :
    (applyPickupEffect cxGameHaste PickupType.pistolHaste).pistolFireRate = (1/2 : ℚ) / 3 ∧
      (applyPickupEffect cxGameHaste PickupType.pistolHaste).pistolHasteRemaining = 10 ∧
      ([6, 5].foldl pistolHasteTick
        (applyPickupEffect cxGameHaste PickupType.pistolHaste)).pistolFireRate = 1/2 ∧
      ([6, 5].foldl pistolHasteTick
        (applyPickupEffect cxGameHaste PickupType.pistolHaste)).pistolHasteActive = false :=
  c8_pistol_haste cxGameHaste [6, 5] (by decide) (by decide)

end GestureShooter
